import Mathlib

/-!
# nRF24L01 data transfer utility: frame checksum, frame layout, handshake wait and `main`

A shallow embedding of `transfer_data.cpp`.

* Bytes (`uint8_t`, `char`) are natural numbers; every 8-bit accumulator update is
  reduced `% 256` and every 16-bit counter update `% 65536`.
* A pointer into a byte buffer is the list of bytes from that address on, so `*data++`
  reads the head and continues with the tail.
* The radio, the ADC, `getopt` and the two signal flags are outside the program.
  `main` and `rx_initialize_connection` therefore take the values the environment hands
  them (the options `getopt` yields, one record per loop test) and return the sequence
  of external calls they make together with how they end.
-/

namespace TransferData

/-! ## `fletcher_8` -/

/-- The `while(size--)` loop of `fletcher_8`: `sum1 += *data++; sum2 += sum1;` on two
`uint8_t` accumulators. -/
def fletcher_8_loop : List Nat → Nat → Nat → Nat → Nat × Nat
  | _, 0, sum1, sum2 => (sum1, sum2)
  | data, size + 1, sum1, sum2 =>
    let sum1 := (sum1 + data.headD 0) % 256
    let sum2 := (sum2 + sum1) % 256
    fletcher_8_loop data.tail size sum1 sum2

/-- Source function `uint8_t fletcher_8(uint8_t *data, size_t size)`. The returned expression
`(sum1&0xF) | (sum2<<4)` is computed in `int` and converted to `uint8_t`. -/
def fletcher_8 (data : List Nat) (size : Nat) : Nat :=
  let r := fletcher_8_loop data size 0 0
  ((r.1 &&& 0xF) ||| (r.2 <<< 4)) % 256

/-- One step of the checksum as the specification words it: `sum1 += byte` (mod 256),
then `sum2 += sum1` (mod 256). -/
def fletcher_step (s : Nat × Nat) (byte : Nat) : Nat × Nat :=
  ((s.1 + byte) % 256, (s.2 + (s.1 + byte) % 256) % 256)

/-- The checksum as the specification words it: run the two accumulators over the
covered bytes in order and pack `(sum1 & 0x0F) | ((sum2 << 4) mod 256)`. -/
def fletcher_8_spec (bytes : List Nat) : Nat :=
  let s := bytes.foldl fletcher_step (0, 0)
  (s.1 &&& 0x0F) ||| ((s.2 <<< 4) % 256)

/-- The sum of `(n - i) * b_i` over the positions `i` of `b_0 .. b_{n-1}`. -/
def positionalSum (bs : List Nat) : Nat :=
  ((List.range bs.length).map (fun i => (bs.length - i) * bs.getD i 0)).sum

/-- Recursive form of `positionalSum`, used in the proofs. -/
def weightedSum : List Nat → Nat
  | [] => 0
  | b :: bs => (bs.length + 1) * b + weightedSum bs

/-! ## `send_packet` -/

/-- Byte order of the machine the program runs on. `memcpy(code, &second, 2)` copies the
object representation of a 16-bit integer, which the source leaves to the target; the
program is written for the Raspberry Pi (`wiringPi`, `RF24`), a little-endian machine. -/
inductive ByteOrder
  | little
  | big

/-- Object representation of a `uint16_t` value. -/
def uint16_bytes (o : ByteOrder) (v : Nat) : List Nat :=
  match o with
  | .little => [v % 256, v / 256 % 256]
  | .big => [v / 256 % 256, v % 256]

/-- Bit pattern of an `int16_t` value (two's complement), as an unsigned 16-bit number. -/
def int16_bits (x : Int) : Nat := (x % 65536).toNat

/-- Object representation of an `int16_t` value. -/
def int16_bytes (o : ByteOrder) (x : Int) : List Nat := uint16_bytes o (int16_bits x)

/-- The call `memset(&code, c, n)` on a fresh buffer of `n` bytes. -/
def memset (c : Nat) (n : Nat) : List Nat := List.replicate n c

/-- The call `memcpy(dst + off, src, n)` for the `n` bytes of `src`. -/
def memcpy : List Nat → Nat → List Nat → List Nat
  | dst, _, [] => dst
  | dst, off, b :: src => memcpy (dst.set off b) (off + 1) src

/-- What `send_packet` has computed when it returns: the local buffer `code`, the local
`chk_sum`, and the returned `int`. -/
structure Packet where
  code : List Nat
  chk_sum : Nat
  ret : Int

/-- Source function
`int send_packet(uint16_t second, uint16_t ctr, int16_t x, int16_t y, int16_t z)`.
The console output of the function is not part of the record. -/
def send_packet (o : ByteOrder) (second ctr : Nat) (x y z : Int) : Packet :=
  let code := memset 0 32
  let code := memcpy code 0 (uint16_bytes o (second % 65536))
  let code := memcpy code 2 (uint16_bytes o (ctr % 65536))
  let code := memcpy code 4 (int16_bytes o x)
  let code := memcpy code 6 (int16_bytes o y)
  let code := memcpy code 8 (int16_bytes o z)
  let chk_sum := fletcher_8 code 10
  { code := code, chk_sum := chk_sum, ret := 1 }

/-- Reading a `uint16_t` back from offset `off` of a frame, in byte order `o`. -/
def read_uint16 (o : ByteOrder) (frame : List Nat) (off : Nat) : Nat :=
  match o with
  | .little => frame.getD off 0 + 256 * frame.getD (off + 1) 0
  | .big => 256 * frame.getD off 0 + frame.getD (off + 1) 0

/-- Reading an `int16_t` back from offset `off` of a frame, in byte order `o`. -/
def read_int16 (o : ByteOrder) (frame : List Nat) (off : Nat) : Int :=
  let u := read_uint16 o frame off
  if u < 32768 then (u : Int) else (u : Int) - 65536

/-! ## `rx_initialize_connection` -/

/-- What one pass through the `while (interrupt_flag == 0)` test meets: the value of the
flag at the test, the answer of `radio.available()`, and the 32 bytes `radio.read`
would place in `data`. -/
structure RxPoll where
  interrupt_flag : Int
  available : Bool
  payload : List Nat

/-- How a run ends on the observations supplied: with a `return`, or still in the loop. -/
inductive Status
  | exited (code : Int)
  | looping
  deriving DecidableEq

/-- Result of running `rx_initialize_connection`: the status, the number of
`radio.read` calls made and the number of loop tests evaluated. -/
structure RxRun where
  status : Status
  reads : Nat
  tests : Nat
  deriving DecidableEq

/-- The loop of `rx_initialize_connection`, counting reads and loop tests. -/
def rx_loop : List RxPoll → Nat → Nat → RxRun
  | [], reads, tests => { status := .looping, reads := reads, tests := tests }
  | p :: rest, reads, tests =>
    if p.interrupt_flag == 0 then
      if p.available then
        let data := p.payload
        -- (char*)data[0] == 0 && (char)data[1] == the character 1 (0x31)
        if data.getD 0 0 == 0 && data.getD 1 0 == 0x31 then
          { status := .exited 0, reads := reads + 1, tests := tests + 1 }
        else rx_loop rest (reads + 1) (tests + 1)
      else rx_loop rest reads (tests + 1)
    else { status := .exited 1, reads := reads, tests := tests + 1 }

/-- Source function `int rx_initialize_connection()`. -/
def rx_initialize_connection (polls : List RxPoll) : RxRun := rx_loop polls 0 0

/-- Number of frames a sequence of polls makes available. -/
def framesIn (polls : List RxPoll) : Nat := (polls.filter (fun p => p.available)).length

/-! ## `main` -/

/-- One value returned by `getopt(argc, argv, "s:d:nmhD")`; `unknown` is the `?` result. -/
inductive Opt
  | D
  | h
  | s (optarg : String)
  | d (optarg : String)
  | m
  | n
  | unknown (optopt : Nat)

/-- Messages `main` writes to the console. -/
inductive Msg
  | help
  | both_roles
  | measuring
  | hiding_progress_bar
  | unknown_option
  | measure_on_transmitter
  | filename_required
  | preamble
  deriving DecidableEq

/-- External calls made by `main`, in program order. -/
inductive Event
  | signal_sigint
  | cout (msg : Msg)
  | fstream_open (filename : Option String)
  | radio_begin
  | radio_flush_tx
  | radio_flush_rx
  | radio_setChannel (channel : Nat)
  | radio_setPALevel
  | radio_setDataRate
  | radio_setAutoAck (enable : Nat)
  | radio_setRetries (delay count : Nat)
  | radio_setCRCLength
  | radio_printDetails
  | radio_openWritingPipe (address : Nat)
  | radio_openReadingPipe (number address : Nat)
  | radio_stopListening
  | ads1115Setup (pinBase i2cAddress : Nat)
  | digitalWrite (pin value : Nat)
  | analogRead (pin : Nat)
  | send_packet (second ctr : Nat) (x y z : Int)
  deriving DecidableEq

/-- The pipe addresses `const uint64_t addresses[2]`. -/
def addresses : List Nat := [0xABCDABCD71, 0x544d52687C]

/-- The constant `const bool role_tx = 1`. -/
def role_tx : Bool := true

/-- The constant `const bool role_rx = 0`. -/
def role_rx : Bool := false

/-- The variables the option loop of `main` assigns (with the global `hide`). -/
structure Flags where
  hide : Int
  filename : Option String
  role : Bool
  measure : Bool
  hide_progress_bar : Bool
  z : Bool

/-- The values of the variables of `main` before the option loop (`hide` is the global,
initialised to 1). -/
def initial_flags : Flags :=
  { hide := 1, filename := none, role := false, measure := false,
    hide_progress_bar := false, z := false }

/-- The `while ((c = getopt(...)) != -1) switch (c)` loop of `main`: the console output it
produces, and either the exit code of a `return` inside the `switch` or the flags. -/
def getopt_loop : List Opt → Flags → List Event × Except Int Flags
  | [], f => ([], .ok f)
  | .D :: rest, f => getopt_loop rest { f with hide := 0 }
  | .h :: rest, f =>
    let r := getopt_loop rest f
    (.cout .help :: r.1, r.2)
  | .s optarg :: rest, f =>
    if f.z == true then ([.cout .both_roles], .error 25)
    else getopt_loop rest { f with filename := some optarg, z := true, role := role_tx }
  | .d optarg :: rest, f =>
    if f.z == true then ([.cout .both_roles], .error 25)
    else getopt_loop rest { f with filename := some optarg, z := true, role := role_rx }
  | .m :: rest, f =>
    let r := getopt_loop rest { f with measure := true }
    (.cout .measuring :: r.1, r.2)
  | .n :: rest, f =>
    let r := getopt_loop rest { f with hide_progress_bar := true }
    (.cout .hiding_progress_bar :: r.1, r.2)
  | .unknown _ :: _, _ => ([.cout .unknown_option], .error 6)

/-- What one pass through the transmitter loop meets: the two signal flags, and the
values the three `analogRead` calls return. -/
structure TxTick where
  interrupt_flag : Int
  alarm_sounded : Int
  analog101 : Int
  analog100 : Int
  analog102 : Int

/-- The conversion `(int16_t)v` of an `int`. -/
def to_int16 (v : Int) : Int := (v + 32768) % 65536 - 32768

/-- The transmitter loop `while (sampling_time > 0)` of `main`, with the local variables
`sampling_time`, `second` and `ctr`. Neither flag of the tick is read: the
`alarm_sounded` block is commented out in the source and `interrupt_flag` does not occur
in the loop. When the loop is left, `main` ends (exit code 0). -/
def tx_loop : List TxTick → Int → Nat → Nat → List Event × Status
  | [], _, _, _ => ([], .looping)
  | t :: rest, sampling_time, second, ctr =>
    if sampling_time > 0 then
      let y := to_int16 t.analog101
      let x := to_int16 t.analog100
      let z := to_int16 t.analog102
      let r := tx_loop rest sampling_time second ((ctr + 1) % 65536)
      (.analogRead 101 :: .analogRead 100 :: .analogRead 102 ::
        .send_packet second ctr x y z :: r.1, r.2)
    else ([], .exited 0)

/-- The radio configuration calls of `main` from `radio.begin()` to `setCRCLength`. -/
def radio_setup : List Event :=
  [.radio_begin, .radio_flush_tx, .radio_flush_rx, .radio_setChannel 110, .radio_setPALevel,
   .radio_setDataRate, .radio_setAutoAck 1, .radio_setRetries 4 15, .radio_setCRCLength]

/-- Source function `int main(int argc, char** argv)`: the external calls made and how
the run ends.
`new fstream` never yields a null pointer, so the `file == NULL` return is not taken.
The `else if(role == role_tx)` follows the `if(hide == 0)` block directly, the receiver
block between them being commented out. -/
def main (argv : List Opt) (ticks : List TxTick) : List Event × Status :=
  let p := getopt_loop argv initial_flags
  match p.2 with
  | .error code => (.signal_sigint :: p.1, .exited code)
  | .ok f =>
    if f.measure == true && f.role == role_tx then
      (.signal_sigint :: (p.1 ++ [.cout .measure_on_transmitter]), .exited 6)
    else if f.z != true then
      (.signal_sigint :: (p.1 ++ [.cout .filename_required]), .exited 6)
    else
      let t := .signal_sigint :: (p.1 ++ [.fstream_open f.filename]
        ++ (if f.hide == 0 then [.cout .preamble] else []) ++ radio_setup)
      if f.hide == 0 then
        (t ++ [.radio_printDetails], .exited 0)
      else if f.role == role_tx then
        let r := tx_loop ticks 5 0 0
        (t ++ [.radio_openWritingPipe (addresses.getD 1 0),
               .radio_openReadingPipe 1 (addresses.getD 0 0),
               .radio_stopListening, .ads1115Setup 100 0x48, .digitalWrite 101 6] ++ r.1, r.2)
      else (t, .exited 0)

/-- Radio driver calls among the events. -/
def Event.isRadio : Event → Bool
  | .radio_begin | .radio_flush_tx | .radio_flush_rx | .radio_setChannel _ | .radio_setPALevel
  | .radio_setDataRate | .radio_setAutoAck _ | .radio_setRetries _ _ | .radio_setCRCLength
  | .radio_printDetails | .radio_openWritingPipe _ | .radio_openReadingPipe _ _
  | .radio_stopListening => true
  | _ => false

/-- Calls of the transmitter session among the events: opening the pipes, setting up and
reading the ADC, and `send_packet`. -/
def Event.isSession : Event → Bool
  | .radio_openWritingPipe _ | .radio_openReadingPipe _ _ | .radio_stopListening
  | .ads1115Setup _ _ | .digitalWrite _ _ | .analogRead _ | .send_packet _ _ _ _ _ => true
  | _ => false

/-- Frame constructions (`send_packet` calls) among the events. -/
def Event.isSend : Event → Bool
  | .send_packet _ _ _ _ _ => true
  | _ => false

/-- Option `-s F`. -/
def Opt.isS : Opt → Bool
  | .s _ => true
  | _ => false

/-- Option `-d F`. -/
def Opt.isD : Opt → Bool
  | .d _ => true
  | _ => false

/-- Option `-m`. -/
def Opt.isM : Opt → Bool
  | .m => true
  | _ => false

/-- Option `-D`. -/
def Opt.isDebug : Opt → Bool
  | .D => true
  | _ => false

/-- A `getopt` result for an option outside `s:d:nmhD`. -/
def Opt.isUnknown : Opt → Bool
  | .unknown _ => true
  | _ => false

/-- Number of role options (`-s F` or `-d F`) on the command line. -/
def roleCount : List Opt → Nat
  | [] => 0
  | .s _ :: rest => roleCount rest + 1
  | .d _ :: rest => roleCount rest + 1
  | _ :: rest => roleCount rest

/-- A loop pass with both flags clear and all three ADC channels at 0. -/
def quiet_tick : TxTick :=
  { interrupt_flag := 0, alarm_sounded := 0, analog101 := 0, analog100 := 0, analog102 := 0 }

/-- A loop pass with `interrupt_flag` set. -/
def interrupted_tick : TxTick :=
  { interrupt_flag := 1, alarm_sounded := 0, analog101 := 0, analog100 := 0, analog102 := 0 }

/-- The frame `first` of the commented-out `tx_initialize_connection`: all zero except
`first[1]`, the character 1. -/
def handshake_frame : List Nat := 0 :: 0x31 :: List.replicate 30 0

/-- A poll of the receiver loop that finds nothing available. -/
def idle_poll : RxPoll := { interrupt_flag := 0, available := false, payload := [] }

/-- A poll that delivers the data frame of second 0, counter 0, sample (100, -50, 0). -/
def data_poll : RxPoll :=
  { interrupt_flag := 0, available := true,
    payload := (send_packet .little 0 0 100 (-50) 0).code }

/-- A poll that delivers the handshake frame. -/
def handshake_poll : RxPoll :=
  { interrupt_flag := 0, available := true, payload := handshake_frame }

/-- A poll at which `interrupt_flag` is set while the handshake frame is available. -/
def interrupted_poll : RxPoll :=
  { interrupt_flag := 1, available := true, payload := handshake_frame }

/-! ## Lemmas on the checksum -/

theorem pack_nibbles (a b : Nat) :
    ((a &&& 0xF) ||| (b <<< 4)) % 256 = a % 16 + 16 * (b % 16) := by
  have h1 : a &&& 0xF = a % 16 := Nat.and_pow_two_sub_one_eq_mod a 4
  have h2 : b <<< 4 = 2 ^ 4 * b := by rw [Nat.shiftLeft_eq, Nat.mul_comm]
  have h3 : a % 16 < 2 ^ 4 := Nat.mod_lt _ (by norm_num)
  rw [h1, h2, Nat.lor_comm, ← Nat.mul_add_lt_is_or h3 b]
  omega

theorem pack_nibbles_spec (a b : Nat) :
    (a &&& 0x0F) ||| ((b <<< 4) % 256) = a % 16 + 16 * (b % 16) := by
  have h1 : a &&& 0x0F = a % 16 := Nat.and_pow_two_sub_one_eq_mod a 4
  have h2 : (b <<< 4) % 256 = 2 ^ 4 * (b % 16) := by
    rw [Nat.shiftLeft_eq]; omega
  have h3 : a % 16 < 2 ^ 4 := Nat.mod_lt _ (by norm_num)
  rw [h1, h2, Nat.lor_comm, ← Nat.mul_add_lt_is_or h3]
  omega

theorem fletcher_8_loop_eq_foldl (bs : List Nat) (s1 s2 : Nat) :
    fletcher_8_loop bs bs.length s1 s2 = bs.foldl fletcher_step (s1, s2) := by
  induction bs generalizing s1 s2 with
  | nil => rfl
  | cons b bs ih =>
    simp only [List.length_cons, fletcher_8_loop, List.headD_cons, List.tail_cons,
      List.foldl_cons, fletcher_step]
    exact ih _ _

theorem fletcher_8_loop_sums (bs : List Nat) (s1 s2 : Nat) :
    (fletcher_8_loop bs bs.length s1 s2).1 % 16 = (s1 + bs.sum) % 16 ∧
    (fletcher_8_loop bs bs.length s1 s2).2 % 16
      = (s2 + bs.length * s1 + weightedSum bs) % 16 := by
  induction bs generalizing s1 s2 with
  | nil => simp [fletcher_8_loop, weightedSum]
  | cons b bs ih =>
    simp only [List.length_cons, fletcher_8_loop, List.headD_cons, List.tail_cons,
      List.sum_cons, weightedSum]
    obtain ⟨h1, h2⟩ := ih ((s1 + b) % 256) ((s2 + (s1 + b) % 256) % 256)
    rw [h1, h2]
    constructor
    · omega
    · generalize bs.length = n
      generalize weightedSum bs = w
      have : n * ((s1 + b) % 256) % 16 = n * (s1 + b) % 16 := by
        rw [Nat.mul_mod, Nat.mod_mod_of_dvd _ (by norm_num : 16 ∣ 256), ← Nat.mul_mod]
      have e1 : (n + 1) * s1 = n * s1 + s1 := by ring
      have e2 : (n + 1) * b = n * b + b := by ring
      have e3 : n * (s1 + b) = n * s1 + n * b := by ring
      rw [e1, e2]
      rw [e3] at this
      omega

theorem positionalSum_cons (b : Nat) (bs : List Nat) :
    positionalSum (b :: bs) = (bs.length + 1) * b + positionalSum bs := by
  unfold positionalSum
  rw [List.length_cons, List.range_succ_eq_map, List.map_cons, List.sum_cons, List.map_map]
  simp [Function.comp_def]

theorem positionalSum_eq_weightedSum (bs : List Nat) : positionalSum bs = weightedSum bs := by
  induction bs with
  | nil => rfl
  | cons b bs ih => rw [positionalSum_cons, ih, weightedSum]

theorem sum_set (bs : List Nat) (i v : Nat) (hi : i < bs.length) :
    (bs.set i v).sum + bs.getD i 0 = bs.sum + v := by
  induction bs generalizing i with
  | nil => simp at hi
  | cons b bs ih =>
    cases i with
    | zero => simp; omega
    | succ i =>
      have := ih i (by simpa using hi)
      simp only [List.set_cons_succ, List.sum_cons, List.getD_cons_succ]
      omega

theorem weightedSum_set (bs : List Nat) (i v : Nat) (hi : i < bs.length) :
    weightedSum (bs.set i v) + (bs.length - i) * bs.getD i 0
      = weightedSum bs + (bs.length - i) * v := by
  induction bs generalizing i with
  | nil => simp at hi
  | cons b bs ih =>
    cases i with
    | zero => simp [weightedSum]; omega
    | succ i =>
      have := ih i (by simpa using hi)
      simp only [List.set_cons_succ, weightedSum, List.length_set, List.getD_cons_succ,
        List.length_cons, Nat.add_sub_add_right]
      omega

theorem fletcher_8_nibbles (bs : List Nat) :
    fletcher_8 bs bs.length = bs.sum % 16 + 16 * (weightedSum bs % 16) := by
  unfold fletcher_8
  obtain ⟨h1, h2⟩ := fletcher_8_loop_sums bs 0 0
  simp only [pack_nibbles, h1, h2]
  simp

theorem fletcher_8_set_ne_iff (bs : List Nat) (i v : Nat) (hi : i < bs.length) :
    fletcher_8 (bs.set i v) bs.length ≠ fletcher_8 bs bs.length
      ↔ v % 16 ≠ bs.getD i 0 % 16 := by
  have hF := fletcher_8_nibbles (bs.set i v)
  rw [List.length_set] at hF
  rw [hF, fletcher_8_nibbles bs]
  have hs := sum_set bs i v hi
  have hw := weightedSum_set bs i v hi
  generalize bs.getD i 0 = b at *
  generalize (bs.set i v).sum = s' at *
  generalize weightedSum (bs.set i v) = w' at *
  generalize bs.sum = s at *
  generalize weightedSum bs = w at *
  generalize bs.length - i = c at *
  constructor
  · intro h hv
    apply h
    have hc : c * v % 16 = c * b % 16 := by rw [Nat.mul_mod, hv, ← Nat.mul_mod]
    omega
  · intro hv h
    apply hv
    omega

theorem xor_bit_mod16 (b k : Nat) : (b ^^^ 2 ^ k) % 16 ≠ b % 16 ↔ k < 4 := by
  have h16 : ∀ x : Nat, x % 16 = x % 2 ^ 4 := fun _ => rfl
  rw [h16, h16]
  constructor
  · intro h
    by_contra hk
    apply h
    apply Nat.eq_of_testBit_eq
    intro j
    simp only [Nat.testBit_mod_two_pow, Nat.testBit_xor, Nat.testBit_two_pow]
    by_cases hj : j < 4
    · have : k ≠ j := by omega
      simp [hj, this]
    · simp [hj]
  · intro hk h
    have := congrArg (fun x => Nat.testBit x k) h
    beta_reduce at this
    rw [Nat.testBit_mod_two_pow, Nat.testBit_mod_two_pow, Nat.testBit_xor,
      Nat.testBit_two_pow_self] at this
    simp [hk] at this

set_option maxRecDepth 100000 in
theorem count_other_nibble (r : Nat) (hr : r < 16) :
    ((List.range 256).filter (fun v => decide (v % 16 ≠ r))).length = 240 := by
  interval_cases r <;> rfl

theorem count_ne_range (n b : Nat) (hb : b < n) :
    ((List.range n).filter (fun v => decide (v ≠ b))).length + 1 = n := by
  have h1 := List.length_eq_countP_add_countP (fun v => decide (v = b)) (List.range n)
  have h2 : List.countP (fun v => decide (v = b)) (List.range n) = 1 := by
    have := List.count_eq_one_of_mem (List.nodup_range n) (List.mem_range.mpr hb)
    rw [List.count] at this
    rw [← this]
    apply List.countP_congr
    intro x _
    simp
  rw [← List.countP_eq_length_filter]
  rw [List.length_range, h2] at h1
  have h3 : List.countP (fun v => decide (v ≠ b)) (List.range n)
      = List.countP (fun a => decide ¬(decide (a = b)) = true) (List.range n) := by
    apply List.countP_congr
    intro x _
    simp
  omega

/-! ## The checksum: claims C1 and C9 -/

/-- C1: for every byte sequence, `fletcher_8` over the whole sequence returns the byte
obtained by running the two 8-bit accumulators (`sum1 += b`, `sum2 += sum1`, both mod 256)
and packing `(sum1 & 0x0F) | ((sum2 << 4) mod 256)`; its low nibble is the sum of the
bytes mod 16, its high nibble is the sum of `(n - i) * b_i` mod 16, it is a byte, and on
the empty sequence it is 0. -/
theorem fletcher_8_correct (bs : List Nat) :
    fletcher_8 bs bs.length = fletcher_8_spec bs ∧
    fletcher_8 bs bs.length % 16 = bs.sum % 16 ∧
    fletcher_8 bs bs.length / 16 = positionalSum bs % 16 ∧
    fletcher_8 bs bs.length < 256 ∧
    fletcher_8 [] 0 = 0 := by
  refine ⟨?_, ?_, ?_, ?_, by decide⟩
  · unfold fletcher_8 fletcher_8_spec
    simp only [pack_nibbles, pack_nibbles_spec, fletcher_8_loop_eq_foldl]
  · rw [fletcher_8_nibbles]; omega
  · rw [fletcher_8_nibbles, positionalSum_eq_weightedSum]; omega
  · rw [fletcher_8_nibbles]; omega

/-- C9: in a byte sequence of any positive length (so also of length 1..10), replacing
the covered byte `b_i` by `v` changes the checksum exactly when `v mod 16` differs from
`b_i mod 16`. Hence, of the 255 wrong values of that byte, exactly 240 are detected, and
flipping bit `k` (0..7) of that byte is detected exactly when `k` is one of 0..3. -/
theorem fletcher_8_single_byte_detection (bs : List Nat) (i : Nat) (hi : i < bs.length)
    (hbytes : ∀ b ∈ bs, b < 256) :
    (∀ v, fletcher_8 (bs.set i v) (bs.set i v).length ≠ fletcher_8 bs bs.length
        ↔ v % 16 ≠ bs.getD i 0 % 16) ∧
    ((List.range 256).filter (fun v => decide (v ≠ bs.getD i 0))).length = 255 ∧
    ((List.range 256).filter (fun v => decide (v ≠ bs.getD i 0 ∧
      fletcher_8 (bs.set i v) (bs.set i v).length ≠ fletcher_8 bs bs.length))).length = 240 ∧
    (∀ k, k < 8 →
      (fletcher_8 (bs.set i (bs.getD i 0 ^^^ 2 ^ k)) (bs.set i (bs.getD i 0 ^^^ 2 ^ k)).length
        ≠ fletcher_8 bs bs.length ↔ k < 4)) := by
  have hb : bs.getD i 0 < 256 := by
    rw [List.getD_eq_getElem _ _ hi]
    exact hbytes _ (List.getElem_mem hi)
  refine ⟨?_, ?_, ?_, ?_⟩
  · intro v
    rw [List.length_set]
    exact fletcher_8_set_ne_iff bs i v hi
  · have := count_ne_range 256 _ hb
    omega
  · rw [← count_other_nibble (bs.getD i 0 % 16) (Nat.mod_lt _ (by norm_num))]
    congr 1
    apply List.filter_congr
    intro v _
    rw [List.length_set, decide_eq_decide, fletcher_8_set_ne_iff bs i v hi]
    constructor
    · exact fun h => h.2
    · exact fun h => ⟨fun e => h (by rw [e]), h⟩
  · intro k _
    rw [List.length_set, fletcher_8_set_ne_iff bs i _ hi]
    exact xor_bit_mod16 _ k

/-- Witness for C9: the ten covered bytes of the frame for second 0, counter 0 and the
sample (100, -50, 0), corrupted at offset 4. -/
theorem fletcher_8_single_byte_detection_witness :
    4 < ([0, 0, 0, 0, 100, 0, 206, 255, 0, 0] : List Nat).length ∧
    (∀ b ∈ ([0, 0, 0, 0, 100, 0, 206, 255, 0, 0] : List Nat), b < 256) ∧
    ((List.range 256).filter (fun v =>
      decide (v ≠ ([0, 0, 0, 0, 100, 0, 206, 255, 0, 0] : List Nat).getD 4 0 ∧
        fletcher_8 (([0, 0, 0, 0, 100, 0, 206, 255, 0, 0] : List Nat).set 4 v)
            (([0, 0, 0, 0, 100, 0, 206, 255, 0, 0] : List Nat).set 4 v).length
          ≠ fletcher_8 [0, 0, 0, 0, 100, 0, 206, 255, 0, 0]
              ([0, 0, 0, 0, 100, 0, 206, 255, 0, 0] : List Nat).length))).length = 240 :=
  ⟨by decide, by decide,
   (fletcher_8_single_byte_detection [0, 0, 0, 0, 100, 0, 206, 255, 0, 0] 4
      (by decide) (by decide)).2.2.1⟩

/-! ## Lemmas on the frame -/

theorem send_packet_code_little (second ctr : Nat) (x y z : Int) :
    (send_packet .little second ctr x y z).code =
      [second % 65536 % 256, second % 65536 / 256 % 256,
       ctr % 65536 % 256, ctr % 65536 / 256 % 256,
       int16_bits x % 256, int16_bits x / 256 % 256,
       int16_bits y % 256, int16_bits y / 256 % 256,
       int16_bits z % 256, int16_bits z / 256 % 256,
       0, 0, 0, 0, 0, 0, 0, 0, 0, 0, 0, 0, 0, 0, 0, 0, 0, 0, 0, 0, 0, 0] := rfl

theorem send_packet_code_big (second ctr : Nat) (x y z : Int) :
    (send_packet .big second ctr x y z).code =
      [second % 65536 / 256 % 256, second % 65536 % 256,
       ctr % 65536 / 256 % 256, ctr % 65536 % 256,
       int16_bits x / 256 % 256, int16_bits x % 256,
       int16_bits y / 256 % 256, int16_bits y % 256,
       int16_bits z / 256 % 256, int16_bits z % 256,
       0, 0, 0, 0, 0, 0, 0, 0, 0, 0, 0, 0, 0, 0, 0, 0, 0, 0, 0, 0, 0, 0] := rfl

theorem read_int16_bytes (x : Int) (hx : -32768 ≤ x ∧ x < 32768) :
    (if int16_bits x % 256 + 256 * (int16_bits x / 256 % 256) < 32768
      then ((int16_bits x % 256 + 256 * (int16_bits x / 256 % 256) : Nat) : Int)
      else ((int16_bits x % 256 + 256 * (int16_bits x / 256 % 256) : Nat) : Int) - 65536) = x := by
  unfold int16_bits
  split <;> omega

/-! ## The frame: claims C2 and C3 -/

/-- C3: for 16-bit arguments, the frame `send_packet` builds on the little-endian target
is 32 bytes long, all of them bytes; `second` lies at offsets 0..1, `ctr` at 2..3, `x` at
4..5, `y` at 6..7 and `z` at 8..9, low byte first, the samples in two's complement;
offsets 11..31 are zero; and on either byte order, reading the five 16-bit fields back
from offsets 0..9 in the byte order of the build returns `(second, ctr, x, y, z)`. -/
theorem send_packet_layout (second ctr : Nat) (x y z : Int)
    (hsecond : second < 65536) (hctr : ctr < 65536)
    (hx : -32768 ≤ x ∧ x < 32768) (hy : -32768 ≤ y ∧ y < 32768)
    (hz : -32768 ≤ z ∧ z < 32768) :
    (send_packet .little second ctr x y z).code.length = 32 ∧
    (∀ b ∈ (send_packet .little second ctr x y z).code, b < 256) ∧
    ((send_packet .little second ctr x y z).code.take 4
      = [second % 256, second / 256, ctr % 256, ctr / 256]) ∧
    List.map Int.ofNat (((send_packet .little second ctr x y z).code.drop 4).take 6)
      = [x % 256, x / 256 % 256, y % 256, y / 256 % 256, z % 256, z / 256 % 256] ∧
    (∀ i, 11 ≤ i → i < 32 → (send_packet .little second ctr x y z).code.getD i 0 = 0) ∧
    (∀ o : ByteOrder,
      read_uint16 o (send_packet o second ctr x y z).code 0 = second ∧
      read_uint16 o (send_packet o second ctr x y z).code 2 = ctr ∧
      read_int16 o (send_packet o second ctr x y z).code 4 = x ∧
      read_int16 o (send_packet o second ctr x y z).code 6 = y ∧
      read_int16 o (send_packet o second ctr x y z).code 8 = z) := by
  have bx := read_int16_bytes x hx
  have by_ := read_int16_bytes y hy
  have bz := read_int16_bytes z hz
  refine ⟨?_, ?_, ?_, ?_, ?_, ?_⟩
  · rw [send_packet_code_little]; rfl
  · rw [send_packet_code_little]
    intro b hb
    simp only [List.mem_cons, List.mem_singleton, List.not_mem_nil, or_false] at hb
    omega
  · rw [send_packet_code_little]
    simp only [List.take_succ_cons, List.take_zero, Nat.mod_eq_of_lt hsecond,
      Nat.mod_eq_of_lt hctr]
    have h1 : second / 256 % 256 = second / 256 := by omega
    have h2 : ctr / 256 % 256 = ctr / 256 := by omega
    rw [h1, h2]
  · rw [send_packet_code_little]
    simp only [List.drop_succ_cons, List.drop_zero, List.take_succ_cons, List.take_zero,
      List.map_cons, List.map_nil]
    unfold int16_bits
    have e : ∀ v : Int, -32768 ≤ v ∧ v < 32768 →
        (((v % 65536).toNat % 256 : Nat) : Int) = v % 256 ∧
        (((v % 65536).toNat / 256 % 256 : Nat) : Int) = v / 256 % 256 := by
      intro v hv; omega
    simp only [Int.ofNat_eq_coe]
    rw [(e x hx).1, (e x hx).2, (e y hy).1, (e y hy).2, (e z hz).1, (e z hz).2]
  · rw [send_packet_code_little]
    intro i h1 h2
    interval_cases i <;> rfl
  · intro o
    cases o
    · rw [send_packet_code_little]
      simp only [read_uint16, read_int16, List.getD_cons_zero, List.getD_cons_succ]
      exact ⟨by omega, by omega, bx, by_, bz⟩
    · rw [send_packet_code_big]
      simp only [read_uint16, read_int16, List.getD_cons_zero, List.getD_cons_succ]
      refine ⟨by omega, by omega, ?_, ?_, ?_⟩
      · rw [Nat.add_comm]; exact bx
      · rw [Nat.add_comm]; exact by_
      · rw [Nat.add_comm]; exact bz

/-- Witness for C3: second 0, counter 2, sample (100, -50, 0). -/
theorem send_packet_layout_witness :
    ((0 : Nat) < 65536 ∧ (2 : Nat) < 65536 ∧ (-32768 ≤ (100 : Int) ∧ (100 : Int) < 32768) ∧
      (-32768 ≤ (-50 : Int) ∧ (-50 : Int) < 32768) ∧ (-32768 ≤ (0 : Int) ∧ (0 : Int) < 32768)) ∧
    (send_packet .little 0 2 100 (-50) 0).code.length = 32 ∧
    (send_packet .little 0 2 100 (-50) 0).code.take 4 = [0 % 256, 0 / 256, 2 % 256, 2 / 256] :=
  ⟨by decide,
   (send_packet_layout 0 2 100 (-50) 0 (by decide) (by decide) (by decide) (by decide)
      (by decide)).1,
   (send_packet_layout 0 2 100 (-50) 0 (by decide) (by decide) (by decide) (by decide)
      (by decide)).2.2.1⟩

/-- C2, evaluated on the code: `send_packet` computes the checksum into the local
`chk_sum` and never writes it to the frame, so offset 10 of the frame is 0 for every
input. For second 0, counter 0 and the sample (100, -50, 0) the Fletcher-8 checksum of
offsets 0..9 of the frame is 209, while the frame carries 0 at offset 10. -/
theorem send_packet_checksum_not_in_frame :
    (∀ (o : ByteOrder) (second ctr : Nat) (x y z : Int),
      (send_packet o second ctr x y z).code.getD 10 0 = 0) ∧
    (send_packet .little 0 0 100 (-50) 0).code
      = [0, 0, 0, 0, 100, 0, 206, 255, 0, 0, 0, 0, 0, 0, 0, 0,
         0, 0, 0, 0, 0, 0, 0, 0, 0, 0, 0, 0, 0, 0, 0, 0] ∧
    (send_packet .little 0 0 100 (-50) 0).chk_sum = 209 ∧
    fletcher_8 ((send_packet .little 0 0 100 (-50) 0).code.take 10) 10 = 209 ∧
    (send_packet .little 0 0 100 (-50) 0).code.getD 10 0 ≠
      fletcher_8 ((send_packet .little 0 0 100 (-50) 0).code.take 10) 10 := by
  refine ⟨?_, by decide, by decide, by decide, by decide⟩
  intro o second ctr x y z
  cases o
  · rw [send_packet_code_little]; rfl
  · rw [send_packet_code_big]; rfl

/-! ## Lemmas on the handshake wait -/

theorem framesIn_cons (p : RxPoll) (ps : List RxPoll) :
    framesIn (p :: ps) = (if p.available then 1 else 0) + framesIn ps := by
  unfold framesIn
  by_cases h : p.available = true
  · simp [List.filter_cons, h]; omega
  · simp [List.filter_cons, h]

theorem rx_loop_skip (pre rest : List RxPoll) (reads tests : Nat)
    (hpre : ∀ p ∈ pre, p.interrupt_flag = 0 ∧
      ¬(p.available = true ∧ p.payload.getD 0 0 = 0x00 ∧ p.payload.getD 1 0 = 0x31)) :
    rx_loop (pre ++ rest) reads tests
      = rx_loop rest (reads + framesIn pre) (tests + pre.length) := by
  induction pre generalizing reads tests with
  | nil => simp [framesIn]
  | cons p pre ih =>
    obtain ⟨hflag, hmark⟩ := hpre p (List.mem_cons_self _ _)
    have hrest := fun q hq => hpre q (List.mem_cons_of_mem _ hq)
    rw [List.cons_append, rx_loop, framesIn_cons]
    by_cases ha : p.available = true
    · have hm : (p.payload.getD 0 0 == 0 && p.payload.getD 1 0 == 0x31) = false := by
        by_contra hne
        apply hmark
        simp only [Bool.not_eq_false, Bool.and_eq_true, beq_iff_eq] at hne
        exact ⟨ha, hne.1, hne.2⟩
      simp only [hflag, ha, hm, beq_self_eq_true, if_true, Bool.false_eq_true, if_false]
      rw [ih _ _ hrest, List.length_cons]
      congr 1 <;> omega
    · simp only [hflag, ha, beq_self_eq_true, if_true, Bool.false_eq_true, if_false]
      rw [ih _ _ hrest, List.length_cons]
      congr 1 <;> omega

/-! ## The handshake wait: claims C4 and C5 -/

/-- C4: let the interrupt flag be clear throughout, let the polls `pre` deliver `N`
frames (between any number of polls with nothing available), none of them with byte 0 =
0x00 and byte 1 = 0x31, and let the next poll deliver a frame with byte 0 = 0x00 and
byte 1 = 0x31. Then `rx_initialize_connection` returns 0 on that frame, having read
exactly `N + 1` frames, whatever the radio would deliver afterwards; and on every prefix
of `pre` it has not returned. -/
theorem rx_initialize_connection_handshake (pre : List RxPoll) (m : RxPoll)
    (rest : List RxPoll)
    (hpre : ∀ p ∈ pre, p.interrupt_flag = 0 ∧
      ¬(p.available = true ∧ p.payload.getD 0 0 = 0x00 ∧ p.payload.getD 1 0 = 0x31))
    (hflag : m.interrupt_flag = 0) (havail : m.available = true)
    (hbyte0 : m.payload.getD 0 0 = 0x00) (hbyte1 : m.payload.getD 1 0 = 0x31) :
    rx_initialize_connection (pre ++ m :: rest)
      = { status := .exited 0, reads := framesIn pre + 1, tests := pre.length + 1 } ∧
    ∀ k, k ≤ pre.length →
      rx_initialize_connection (pre.take k)
        = { status := .looping, reads := framesIn (pre.take k), tests := k } := by
  constructor
  · unfold rx_initialize_connection
    rw [rx_loop_skip pre _ 0 0 hpre, rx_loop]
    simp only [hflag, havail, hbyte0, hbyte1, beq_self_eq_true, Bool.and_self, if_true,
      Nat.zero_add]
  · intro k hk
    unfold rx_initialize_connection
    have h := rx_loop_skip (pre.take k) [] 0 0
      (fun p hp => hpre p (List.mem_of_mem_take hp))
    rw [List.append_nil] at h
    rw [h, rx_loop, List.length_take]
    simp [Nat.min_eq_left hk]

/-- Witness for C4: nothing available, a data frame, nothing available, then the
handshake frame, with a further data frame behind it. -/
theorem rx_initialize_connection_handshake_witness :
    (∀ p ∈ [idle_poll, data_poll, idle_poll], p.interrupt_flag = 0 ∧
      ¬(p.available = true ∧ p.payload.getD 0 0 = 0x00 ∧ p.payload.getD 1 0 = 0x31)) ∧
    handshake_poll.interrupt_flag = 0 ∧ handshake_poll.available = true ∧
    handshake_poll.payload.getD 0 0 = 0x00 ∧ handshake_poll.payload.getD 1 0 = 0x31 ∧
    rx_initialize_connection ([idle_poll, data_poll, idle_poll] ++ handshake_poll :: [data_poll])
      = { status := .exited 0, reads := framesIn [idle_poll, data_poll, idle_poll] + 1,
          tests := [idle_poll, data_poll, idle_poll].length + 1 } :=
  ⟨by decide, rfl, rfl, rfl, rfl,
   (rx_initialize_connection_handshake [idle_poll, data_poll, idle_poll] handshake_poll
      [data_poll] (by decide) rfl rfl rfl rfl).1⟩

/-- C5: if the interrupt flag is non-zero at a loop test before any frame with byte 0 =
0x00 and byte 1 = 0x31 has been read, `rx_initialize_connection` returns 1, not 0, and
reads no frame at or after that test, whatever the radio has available then or later. -/
theorem rx_initialize_connection_cancel (pre : List RxPoll) (c : RxPoll)
    (rest : List RxPoll)
    (hpre : ∀ p ∈ pre, p.interrupt_flag = 0 ∧
      ¬(p.available = true ∧ p.payload.getD 0 0 = 0x00 ∧ p.payload.getD 1 0 = 0x31))
    (hflag : c.interrupt_flag ≠ 0) :
    rx_initialize_connection (pre ++ c :: rest)
      = { status := .exited 1, reads := framesIn pre, tests := pre.length + 1 } ∧
    (rx_initialize_connection (pre ++ c :: rest)).status ≠ .exited 0 := by
  have h : rx_initialize_connection (pre ++ c :: rest)
      = { status := .exited 1, reads := framesIn pre, tests := pre.length + 1 } := by
    unfold rx_initialize_connection
    rw [rx_loop_skip pre _ 0 0 hpre, rx_loop]
    simp [hflag]
  refine ⟨h, ?_⟩
  rw [h]
  simp

/-- Witness for C5: after one idle poll and one data frame the flag is found set while
the handshake frame is available. -/
theorem rx_initialize_connection_cancel_witness :
    (∀ p ∈ [idle_poll, data_poll], p.interrupt_flag = 0 ∧
      ¬(p.available = true ∧ p.payload.getD 0 0 = 0x00 ∧ p.payload.getD 1 0 = 0x31)) ∧
    interrupted_poll.interrupt_flag ≠ 0 ∧
    rx_initialize_connection ([idle_poll, data_poll] ++ interrupted_poll :: [handshake_poll])
      = { status := .exited 1, reads := framesIn [idle_poll, data_poll],
          tests := [idle_poll, data_poll].length + 1 } :=
  ⟨by decide, by decide,
   (rx_initialize_connection_cancel [idle_poll, data_poll] interrupted_poll [handshake_poll]
      (by decide) (by decide)).1⟩

/-! ## Lemmas on the option loop and `main` -/

theorem roleCount_pos_of_isS (argv : List Opt) (h : argv.any Opt.isS = true) :
    1 ≤ roleCount argv := by
  induction argv with
  | nil => simp at h
  | cons o argv ih =>
    cases o <;> simp only [List.any_cons, Opt.isS, Bool.false_or, Bool.true_or, roleCount] at h ⊢
      <;> first | omega | exact ih h

theorem roleCount_pos_of_isD (argv : List Opt) (h : argv.any Opt.isD = true) :
    1 ≤ roleCount argv := by
  induction argv with
  | nil => simp at h
  | cons o argv ih =>
    cases o <;> simp only [List.any_cons, Opt.isD, Bool.false_or, Bool.true_or, roleCount] at h ⊢
      <;> first | omega | exact ih h

theorem roleCount_two_of_isS_isD (argv : List Opt) (hs : argv.any Opt.isS = true)
    (hd : argv.any Opt.isD = true) : 2 ≤ roleCount argv := by
  induction argv with
  | nil => simp at hs
  | cons o argv ih =>
    cases o <;>
      simp only [List.any_cons, Opt.isS, Opt.isD, Bool.false_or, Bool.true_or, roleCount]
        at hs hd ⊢
    · exact ih hs hd
    · exact ih hs hd
    · have := roleCount_pos_of_isD argv hd; omega
    · have := roleCount_pos_of_isS argv hs; omega
    · exact ih hs hd
    · exact ih hs hd
    · exact ih hs hd

theorem any_isS_of_roleCount_zero (argv : List Opt) (h : roleCount argv = 0) :
    argv.any Opt.isS = false := by
  cases hs : argv.any Opt.isS
  · rfl
  · have := roleCount_pos_of_isS argv hs; omega

theorem getopt_loop_cout (argv : List Opt) (f : Flags) :
    ∀ e ∈ (getopt_loop argv f).1, ∃ msg, e = Event.cout msg := by
  induction argv generalizing f with
  | nil => simp [getopt_loop]
  | cons o argv ih =>
    cases o <;> simp only [getopt_loop]
    · exact ih _
    · intro e he
      rcases List.mem_cons.mp he with h | h
      · exact ⟨_, h⟩
      · exact ih _ e h
    · split
      · intro e he; exact ⟨_, List.mem_singleton.mp he⟩
      · exact ih _
    · split
      · intro e he; exact ⟨_, List.mem_singleton.mp he⟩
      · exact ih _
    · intro e he
      rcases List.mem_cons.mp he with h | h
      · exact ⟨_, h⟩
      · exact ih _ e h
    · intro e he
      rcases List.mem_cons.mp he with h | h
      · exact ⟨_, h⟩
      · exact ih _ e h
    · intro e he; exact ⟨_, List.mem_singleton.mp he⟩

theorem getopt_loop_error (argv : List Opt) (f : Flags)
    (hrec : ∀ o ∈ argv, o.isUnknown = false)
    (hcount : 2 ≤ roleCount argv + (if f.z = true then 1 else 0)) :
    (getopt_loop argv f).2 = .error 25 := by
  induction argv generalizing f with
  | nil =>
    simp only [roleCount] at hcount
    split at hcount <;> omega
  | cons o argv ih =>
    have hrest := fun q hq => hrec q (List.mem_cons_of_mem _ hq)
    have ho := hrec o (List.mem_cons_self _ _)
    cases o <;> simp only [getopt_loop, roleCount] at hcount ⊢
    · exact ih _ hrest hcount
    · exact ih _ hrest hcount
    · rcases Bool.eq_false_or_eq_true f.z with hz | hz
      · simp [hz]
      · simp only [hz, Bool.false_eq_true, if_false, Nat.add_zero] at hcount
        simp only [hz, beq_iff_eq, Bool.false_eq_true, if_false]
        apply ih _ hrest
        simp only [if_true]
        omega
    · rcases Bool.eq_false_or_eq_true f.z with hz | hz
      · simp [hz]
      · simp only [hz, Bool.false_eq_true, if_false, Nat.add_zero] at hcount
        simp only [hz, beq_iff_eq, Bool.false_eq_true, if_false]
        apply ih _ hrest
        simp only [if_true]
        omega
    · exact ih _ hrest hcount
    · exact ih _ hrest hcount
    · simp [Opt.isUnknown] at ho

theorem getopt_loop_ok (argv : List Opt) (f : Flags)
    (hrec : ∀ o ∈ argv, o.isUnknown = false)
    (hcount : roleCount argv + (if f.z = true then 1 else 0) ≤ 1) :
    ∃ g, (getopt_loop argv f).2 = .ok g ∧
      g.z = (f.z || decide (roleCount argv = 1)) ∧
      g.role = (if roleCount argv = 0 then f.role else argv.any Opt.isS) ∧
      g.measure = (f.measure || argv.any Opt.isM) ∧
      g.hide = (if argv.any Opt.isDebug = true then 0 else f.hide) := by
  induction argv generalizing f with
  | nil => exact ⟨f, by simp [getopt_loop, roleCount]⟩
  | cons o argv ih =>
    have hrest := fun q hq => hrec q (List.mem_cons_of_mem _ hq)
    have ho := hrec o (List.mem_cons_self _ _)
    cases o <;> simp only [getopt_loop, roleCount] at hcount ⊢
    · obtain ⟨g, h1, h2, h3, h4, h5⟩ := ih { f with hide := 0 } hrest hcount
      refine ⟨g, h1, h2, h3, ?_, ?_⟩
      · simp [h4, Opt.isM]
      · simp [h5, Opt.isDebug]
    · obtain ⟨g, h1, h2, h3, h4, h5⟩ := ih f hrest hcount
      refine ⟨g, h1, h2, ?_, ?_, ?_⟩
      · simp [h3, Opt.isS]
      · simp [h4, Opt.isM]
      · simp [h5, Opt.isDebug]
    · rcases Bool.eq_false_or_eq_true f.z with hz | hz
      · simp only [hz, if_true] at hcount
        omega
      · simp only [hz, Bool.false_eq_true, if_false, Nat.add_zero] at hcount
        simp only [hz, beq_iff_eq, Bool.false_eq_true, if_false]
        obtain ⟨g, h1, h2, h3, h4, h5⟩ :=
          ih { f with filename := some ‹String›, z := true, role := role_tx } hrest
            (by simp only [if_true]; omega)
        have h0 : roleCount argv = 0 := by omega
        refine ⟨g, h1, ?_, ?_, ?_, ?_⟩
        · simp [h2, h0]
        · simp [h3, h0, Opt.isS, role_tx]
        · simp [h4, hz, Opt.isM]
        · simp [h5, Opt.isDebug]
    · rcases Bool.eq_false_or_eq_true f.z with hz | hz
      · simp only [hz, if_true] at hcount
        omega
      · simp only [hz, Bool.false_eq_true, if_false, Nat.add_zero] at hcount
        simp only [hz, beq_iff_eq, Bool.false_eq_true, if_false]
        obtain ⟨g, h1, h2, h3, h4, h5⟩ :=
          ih { f with filename := some ‹String›, z := true, role := role_rx } hrest
            (by simp only [if_true]; omega)
        have h0 : roleCount argv = 0 := by omega
        refine ⟨g, h1, ?_, ?_, ?_, ?_⟩
        · simp [h2, h0]
        · simp [h3, h0, Opt.isS, role_rx, any_isS_of_roleCount_zero argv h0]
        · simp [h4, hz, Opt.isM]
        · simp [h5, Opt.isDebug]
    · obtain ⟨g, h1, h2, h3, h4, h5⟩ := ih { f with measure := true } hrest hcount
      refine ⟨g, h1, h2, ?_, ?_, ?_⟩
      · simp [h3, Opt.isS]
      · simp [h4, Opt.isM]
      · simp [h5, Opt.isDebug]
    · obtain ⟨g, h1, h2, h3, h4, h5⟩ := ih { f with hide_progress_bar := true } hrest hcount
      refine ⟨g, h1, h2, ?_, ?_, ?_⟩
      · simp [h3, Opt.isS]
      · simp [h4, Opt.isM]
      · simp [h5, Opt.isDebug]
    · simp [Opt.isUnknown] at ho

theorem main_both_roles (argv : List Opt) (ticks : List TxTick)
    (hrec : ∀ o ∈ argv, o.isUnknown = false) (hcount : 2 ≤ roleCount argv) :
    main argv ticks = (.signal_sigint :: (getopt_loop argv initial_flags).1, .exited 25) := by
  have h := getopt_loop_error argv initial_flags hrec (by simp [initial_flags]; omega)
  simp only [main, h]

theorem main_measure_on_transmitter (argv : List Opt) (ticks : List TxTick)
    (hrec : ∀ o ∈ argv, o.isUnknown = false) (hcount : roleCount argv = 1)
    (hm : argv.any Opt.isM = true) (hs : argv.any Opt.isS = true) :
    main argv ticks = (.signal_sigint ::
      ((getopt_loop argv initial_flags).1 ++ [.cout .measure_on_transmitter]), .exited 6) := by
  obtain ⟨g, h1, _, h3, h4, _⟩ :=
    getopt_loop_ok argv initial_flags hrec (by simp [initial_flags]; omega)
  simp only [main, h1]
  simp [h3, h4, hcount, hm, hs, role_tx]

theorem main_no_role (argv : List Opt) (ticks : List TxTick)
    (hrec : ∀ o ∈ argv, o.isUnknown = false) (hcount : roleCount argv = 0) :
    main argv ticks = (.signal_sigint ::
      ((getopt_loop argv initial_flags).1 ++ [.cout .filename_required]), .exited 6) := by
  obtain ⟨g, h1, h2, h3, _, _⟩ :=
    getopt_loop_ok argv initial_flags hrec (by simp [initial_flags]; omega)
  simp only [main, h1]
  simp [h2, h3, hcount, initial_flags, role_tx]

/-- The events of `main` up to and including the radio configuration, on a command line
that passes the checks. -/
theorem main_valid (argv : List Opt) (ticks : List TxTick)
    (hrec : ∀ o ∈ argv, o.isUnknown = false) (hcount : roleCount argv = 1)
    (hm : ¬(argv.any Opt.isM = true ∧ argv.any Opt.isS = true)) :
    ∃ filename, main argv ticks =
      if argv.any Opt.isDebug = true then
        (.signal_sigint :: ((getopt_loop argv initial_flags).1 ++ [.fstream_open filename]
          ++ [.cout .preamble] ++ radio_setup) ++ [.radio_printDetails], .exited 0)
      else if argv.any Opt.isS = true then
        (.signal_sigint :: ((getopt_loop argv initial_flags).1 ++ [.fstream_open filename]
          ++ [] ++ radio_setup) ++
          [.radio_openWritingPipe 0x544d52687C, .radio_openReadingPipe 1 0xABCDABCD71,
           .radio_stopListening, .ads1115Setup 100 0x48, .digitalWrite 101 6]
          ++ (tx_loop ticks 5 0 0).1, (tx_loop ticks 5 0 0).2)
      else
        (.signal_sigint :: ((getopt_loop argv initial_flags).1 ++ [.fstream_open filename]
          ++ [] ++ radio_setup), .exited 0) := by
  obtain ⟨g, h1, h2, h3, h4, h5⟩ :=
    getopt_loop_ok argv initial_flags hrec (by simp [initial_flags]; omega)
  refine ⟨g.filename, ?_⟩
  simp only [main, h1]
  have hmr : (g.measure == true && g.role == role_tx) = false := by
    rw [h3, h4]
    simp only [hcount, initial_flags, role_tx]
    cases hM : argv.any Opt.isM <;> cases hS : argv.any Opt.isS <;> simp_all
  have hz : (g.z != true) = false := by simp [h2, hcount]
  simp only [hmr, hz, Bool.false_eq_true, if_false]
  by_cases hD : argv.any Opt.isDebug = true
  · simp [h5, hD]
  · have hh : (g.hide == 0) = false := by simp [h5, hD, initial_flags]
    simp only [hh, hD, Bool.false_eq_true, if_false]
    by_cases hS : argv.any Opt.isS = true
    · simp [h3, hcount, hS, role_tx, addresses]
    · simp [h3, hcount, hS, role_tx]

theorem getopt_loop_filter (argv : List Opt) (f : Flags) (q : Event → Bool)
    (hq : ∀ msg, q (.cout msg) = false) : (getopt_loop argv f).1.filter q = [] := by
  rw [List.filter_eq_nil_iff]
  intro e he
  obtain ⟨msg, rfl⟩ := getopt_loop_cout argv f e he
  simp [hq]

theorem tx_loop_status (ticks : List TxTick) (second ctr : Nat) :
    (tx_loop ticks 5 second ctr).2 = .looping := by
  induction ticks generalizing ctr with
  | nil => rfl
  | cons t ticks ih => simp [tx_loop, ih]

theorem tx_loop_filter_isRadio (ticks : List TxTick) (second ctr : Nat) :
    (tx_loop ticks 5 second ctr).1.filter Event.isRadio = [] := by
  induction ticks generalizing ctr with
  | nil => rfl
  | cons t ticks ih => simp [tx_loop, ih, Event.isRadio]

theorem tx_loop_filter_isSend (ticks : List TxTick) (second ctr : Nat) :
    ((tx_loop ticks 5 second ctr).1.filter Event.isSend).length = ticks.length := by
  induction ticks generalizing ctr with
  | nil => rfl
  | cons t ticks ih => simp [tx_loop, ih, Event.isSend]

/-- C6 fails as stated: `-m -s a -s b` requests measurement with the transmitter role,
and `main` ends with exit code 25, not 6; the `z == true` return inside the option loop
is taken at the second `-s`, before the check of `-m` after the loop. -/
theorem main_repeated_role_counterexample :
    (∀ o ∈ [Opt.m, Opt.s "a", Opt.s "b"], o.isUnknown = false) ∧
    [Opt.m, Opt.s "a", Opt.s "b"].any Opt.isM = true ∧
    [Opt.m, Opt.s "a", Opt.s "b"].any Opt.isS = true ∧
    [Opt.m, Opt.s "a", Opt.s "b"].any Opt.isD = false ∧
    (main [Opt.m, Opt.s "a", Opt.s "b"] []).2 = .exited 25 ∧
    (main [Opt.m, Opt.s "a", Opt.s "b"] []).2 ≠ .exited 6 := by
  refine ⟨by simp [Opt.isUnknown], rfl, rfl, rfl, rfl, ?_⟩
  decide

/-- C6 as amended: on a command line of recognised options, `main` returns before any
radio call with exit code 25 when both `-s` and `-d` occur; when `-m` occurs with `-s`,
with exit code 6 if `-s F` is the only role option and with exit code 25 if a further
role option occurs; and with exit code 6 when no role option occurs. When exactly one
role option occurs, without `-m` together with `-s`, the run reaches `radio.begin()` and
either runs on or ends with code 0. -/
theorem main_configuration_errors (argv : List Opt) (ticks : List TxTick)
    (hrec : ∀ o ∈ argv, o.isUnknown = false) :
    (argv.any Opt.isS = true ∧ argv.any Opt.isD = true →
      (main argv ticks).2 = .exited 25 ∧ (main argv ticks).1.filter Event.isRadio = []) ∧
    (argv.any Opt.isM = true ∧ argv.any Opt.isS = true →
      (roleCount argv = 1 → (main argv ticks).2 = .exited 6) ∧
      (2 ≤ roleCount argv → (main argv ticks).2 = .exited 25) ∧
      (roleCount argv = 1 ∨ 2 ≤ roleCount argv) ∧
      (main argv ticks).1.filter Event.isRadio = []) ∧
    (roleCount argv = 0 →
      (main argv ticks).2 = .exited 6 ∧ (main argv ticks).1.filter Event.isRadio = []) ∧
    (roleCount argv = 1 → ¬(argv.any Opt.isM = true ∧ argv.any Opt.isS = true) →
      Event.radio_begin ∈ (main argv ticks).1 ∧
      ((main argv ticks).2 = .exited 0 ∨ (main argv ticks).2 = .looping)) := by
  have hq := getopt_loop_filter argv initial_flags Event.isRadio (fun _ => rfl)
  have h25 : 2 ≤ roleCount argv →
      (main argv ticks).2 = .exited 25 ∧ (main argv ticks).1.filter Event.isRadio = [] := by
    intro h
    rw [main_both_roles argv ticks hrec h]
    simp [hq, Event.isRadio]
  have hmt : roleCount argv = 1 → argv.any Opt.isM = true → argv.any Opt.isS = true →
      (main argv ticks).2 = .exited 6 ∧ (main argv ticks).1.filter Event.isRadio = [] := by
    intro h hm hs
    rw [main_measure_on_transmitter argv ticks hrec h hm hs]
    simp [hq, Event.isRadio]
  refine ⟨?_, ?_, ?_, ?_⟩
  · rintro ⟨hs, hd⟩
    exact h25 (roleCount_two_of_isS_isD argv hs hd)
  · rintro ⟨hm, hs⟩
    have h1 := roleCount_pos_of_isS argv hs
    by_cases h2 : 2 ≤ roleCount argv
    · exact ⟨fun h => by omega, fun _ => (h25 h2).1, Or.inr h2, (h25 h2).2⟩
    · have h : roleCount argv = 1 := by omega
      exact ⟨fun _ => (hmt h hm hs).1, fun h3 => by omega, Or.inl h, (hmt h hm hs).2⟩
  · intro h
    rw [main_no_role argv ticks hrec h]
    simp [hq, Event.isRadio]
  · intro h hm
    obtain ⟨filename, hmain⟩ := main_valid argv ticks hrec h hm
    rw [hmain]
    split
    · simp [radio_setup]
    · split
      · simp [radio_setup, tx_loop_status]
      · simp [radio_setup]

/-- Witness for C6: the command line `-m -s data.txt -s other.txt`, on which the second
`-s` takes the exit-25 return and no radio call is made. -/
theorem main_configuration_errors_witness :
    (∀ o ∈ [Opt.m, Opt.s "data.txt", Opt.s "other.txt"], o.isUnknown = false) ∧
    (2 ≤ roleCount [Opt.m, Opt.s "data.txt", Opt.s "other.txt"] →
      (main [Opt.m, Opt.s "data.txt", Opt.s "other.txt"] []).2 = .exited 25) ∧
    (main [Opt.m, Opt.s "data.txt", Opt.s "other.txt"] []).1.filter Event.isRadio = [] :=
  ⟨by simp [Opt.isUnknown],
   ((main_configuration_errors [Opt.m, Opt.s "data.txt", Opt.s "other.txt"] []
      (by simp [Opt.isUnknown])).2.1 ⟨rfl, rfl⟩).2.1,
   ((main_configuration_errors [Opt.m, Opt.s "data.txt", Opt.s "other.txt"] []
      (by simp [Opt.isUnknown])).2.1 ⟨rfl, rfl⟩).2.2.2⟩

/-- C7, evaluated on the code: the transmitter loop of `main` never reads
`interrupt_flag`. Started with `-s F`, it is still running after any number of passes,
whatever the flag was at each of them, and has built one frame in every pass; with the
flag set from the first pass on, three passes build three frames. -/
theorem tx_loop_ignores_interrupt_flag :
    (∀ (filename : String) (ticks : List TxTick),
      (main [Opt.s filename] ticks).2 = .looping ∧
      ((main [Opt.s filename] ticks).1.filter Event.isSend).length = ticks.length) ∧
    tx_loop [interrupted_tick, interrupted_tick, interrupted_tick] 5 0 0
      = ([.analogRead 101, .analogRead 100, .analogRead 102, .send_packet 0 0 0 0 0,
          .analogRead 101, .analogRead 100, .analogRead 102, .send_packet 0 1 0 0 0,
          .analogRead 101, .analogRead 100, .analogRead 102, .send_packet 0 2 0 0 0],
         .looping) := by
  refine ⟨?_, by decide⟩
  intro filename ticks
  obtain ⟨fn, hmain⟩ := main_valid [Opt.s filename] ticks (by simp [Opt.isUnknown]) rfl
    (by simp [Opt.isM])
  rw [hmain]
  have hq := getopt_loop_filter [Opt.s filename] initial_flags Event.isSend (fun _ => rfl)
  simp [Opt.isDebug, Opt.isS, tx_loop_status, hq, radio_setup, Event.isSend,
    tx_loop_filter_isSend]

/-- C10: on a command line that passes the checks of `main` (recognised options, exactly
one role option, not `-m` together with `-s`), the calls of the transmitter session
(opening the pipes, ADC set-up and reads, `send_packet`) occur exactly when `-s` is given
and `-D` is not. In that case the loop runs and builds one frame per pass; otherwise
(`-s F -D`, or the receiver role) no frame is built and `main` ends with code 0. -/
theorem main_transmitter_gate (argv : List Opt) (ticks : List TxTick)
    (hrec : ∀ o ∈ argv, o.isUnknown = false) (hcount : roleCount argv = 1)
    (hm : ¬(argv.any Opt.isM = true ∧ argv.any Opt.isS = true)) :
    ((main argv ticks).1.any Event.isSession = true
      ↔ (argv.any Opt.isS = true ∧ argv.any Opt.isDebug = false)) ∧
    ((main argv ticks).1.filter Event.isSend).length
      = (if argv.any Opt.isS = true ∧ argv.any Opt.isDebug = false then ticks.length else 0) ∧
    (main argv ticks).2
      = (if argv.any Opt.isS = true ∧ argv.any Opt.isDebug = false then .looping
         else .exited 0) := by
  obtain ⟨filename, hmain⟩ := main_valid argv ticks hrec hcount hm
  have hq := getopt_loop_filter argv initial_flags Event.isSend (fun _ => rfl)
  have hs : (getopt_loop argv initial_flags).1.any Event.isSession = false := by
    rw [List.any_eq_false]
    intro e he
    obtain ⟨msg, rfl⟩ := getopt_loop_cout argv initial_flags e he
    simp [Event.isSession]
  rw [hmain]
  by_cases hD : argv.any Opt.isDebug = true
  · simp [hD, hq, hs, radio_setup, Event.isSession, Event.isSend]
  · by_cases hS : argv.any Opt.isS = true
    · simp [hD, hS, hq, hs, radio_setup, Event.isSession, Event.isSend, tx_loop_status,
        tx_loop_filter_isSend]
    · simp [hD, hS, hq, hs, radio_setup, Event.isSession, Event.isSend]

/-- Witness for C10: the command line `-s data.txt -D` with two passes on offer. -/
theorem main_transmitter_gate_witness :
    (∀ o ∈ [Opt.s "data.txt", Opt.D], o.isUnknown = false) ∧
    roleCount [Opt.s "data.txt", Opt.D] = 1 ∧
    ¬([Opt.s "data.txt", Opt.D].any Opt.isM = true ∧
      [Opt.s "data.txt", Opt.D].any Opt.isS = true) ∧
    ((main [Opt.s "data.txt", Opt.D] [quiet_tick, quiet_tick]).1.filter Event.isSend).length
      = (if [Opt.s "data.txt", Opt.D].any Opt.isS = true ∧
            [Opt.s "data.txt", Opt.D].any Opt.isDebug = false
         then [quiet_tick, quiet_tick].length else 0) :=
  ⟨by simp [Opt.isUnknown], rfl, by simp [Opt.isM],
   (main_transmitter_gate [Opt.s "data.txt", Opt.D] [quiet_tick, quiet_tick]
      (by simp [Opt.isUnknown]) rfl (by simp [Opt.isM])).2.1⟩

end TransferData
